import Mathlib

/-!
Shallow embedding of the myMPD song-tag aggregation and serialization core
(src/src/mpd_client/mpd_client_tags.c) and of the atomic file writer
(src/src/lib/filehandler.c), together with theorems settling the spec claims.

Machine integers that matter here (tag enum values, counts, byte counts) are
modelled as Nat/Int; C strings are Lean Strings; the singly-linked
`struct mpd_tag_value` list is a `List String`.
-/

/-- The `enum mpd_tag_type` members (libmpdclient), excluding the sentinel
`MPD_TAG_UNKNOWN = -1` which is modelled as `Option.none` where it occurs.
Order matches the enumeration's numbering, `MPD_TAG_COUNT = 32`. -/
inductive TagType where
  | artist
  | artistSort
  | album
  | albumSort
  | albumArtist
  | albumArtistSort
  | title
  | track
  | name
  | genre
  | mood
  | date
  | originalDate
  | composer
  | composerSort
  | performer
  | conductor
  | work
  | ensemble
  | movement
  | movementNumber
  | location
  | grouping
  | comment
  | disc
  | label
  | musicbrainzArtistId
  | musicbrainzAlbumId
  | musicbrainzAlbumArtistId
  | musicbrainzTrackId
  | musicbrainzReleaseTrackId
  | musicbrainzWorkId
deriving DecidableEq, Repr, Fintype

/-- `MPD_TAG_COUNT`: number of members of the tag enumeration. -/
def MPD_TAG_COUNT : Int := 32

/-- The numeric value of each enumeration member. -/
def tagVal : TagType → Int
  | .artist => 0
  | .artistSort => 1
  | .album => 2
  | .albumSort => 3
  | .albumArtist => 4
  | .albumArtistSort => 5
  | .title => 6
  | .track => 7
  | .name => 8
  | .genre => 9
  | .mood => 10
  | .date => 11
  | .originalDate => 12
  | .composer => 13
  | .composerSort => 14
  | .performer => 15
  | .conductor => 16
  | .work => 17
  | .ensemble => 18
  | .movement => 19
  | .movementNumber => 20
  | .location => 21
  | .grouping => 22
  | .comment => 23
  | .disc => 24
  | .label => 25
  | .musicbrainzArtistId => 26
  | .musicbrainzAlbumId => 27
  | .musicbrainzAlbumArtistId => 28
  | .musicbrainzTrackId => 29
  | .musicbrainzReleaseTrackId => 30
  | .musicbrainzWorkId => 31

/-- All enumeration members in numbering order. -/
def allTags : List TagType :=
  [.artist, .artistSort, .album, .albumSort, .albumArtist, .albumArtistSort,
   .title, .track, .name, .genre, .mood, .date, .originalDate, .composer,
   .composerSort, .performer, .conductor, .work, .ensemble, .movement,
   .movementNumber, .location, .grouping, .comment, .disc, .label,
   .musicbrainzArtistId, .musicbrainzAlbumId, .musicbrainzAlbumArtistId,
   .musicbrainzTrackId, .musicbrainzReleaseTrackId, .musicbrainzWorkId]

/-- The member of the enumeration with a given numeric value (none if the
value is outside the range `0 ≤ v < MPD_TAG_COUNT`). -/
def tagOfInt (i : Int) : Option TagType :=
  allTags.find? (fun t => tagVal t = i)

/-- `mpd_tag_name` (libmpdclient): the canonical name of each tag type. -/
def mpd_tag_name : TagType → String
  | .artist => "Artist"
  | .artistSort => "ArtistSort"
  | .album => "Album"
  | .albumSort => "AlbumSort"
  | .albumArtist => "AlbumArtist"
  | .albumArtistSort => "AlbumArtistSort"
  | .title => "Title"
  | .track => "Track"
  | .name => "Name"
  | .genre => "Genre"
  | .mood => "Mood"
  | .date => "Date"
  | .originalDate => "OriginalDate"
  | .composer => "Composer"
  | .composerSort => "ComposerSort"
  | .performer => "Performer"
  | .conductor => "Conductor"
  | .work => "Work"
  | .ensemble => "Ensemble"
  | .movement => "Movement"
  | .movementNumber => "MovementNumber"
  | .location => "Location"
  | .grouping => "Grouping"
  | .comment => "Comment"
  | .disc => "Disc"
  | .label => "Label"
  | .musicbrainzArtistId => "MUSICBRAINZ_ARTISTID"
  | .musicbrainzAlbumId => "MUSICBRAINZ_ALBUMID"
  | .musicbrainzAlbumArtistId => "MUSICBRAINZ_ALBUMARTISTID"
  | .musicbrainzTrackId => "MUSICBRAINZ_TRACKID"
  | .musicbrainzReleaseTrackId => "MUSICBRAINZ_RELEASETRACKID"
  | .musicbrainzWorkId => "MUSICBRAINZ_WORKID"

/-! ## String helpers (sds library semantics) -/

/-- The comma-separated-with-separator join performed by the C loops of the
form `if (count++) append(sep); append(x);`. -/
def joinSep (sep : String) : List String → String
  | [] => ""
  | x :: xs => xs.foldl (fun acc y => acc ++ sep ++ y) x

/-- Concatenation of a list of strings (used to state what the bulk renderer
emits for a list of requested tags). -/
def strConcat : List String → String
  | [] => ""
  | x :: xs => x ++ strConcat xs

/-- Splitting worker: accumulates the current token (reversed) and emits a
token at each separator. -/
def splitCharAux (sep : Char) : List Char → List Char → List String
  | [], acc => [String.mk acc.reverse]
  | c :: rest, acc =>
    if c = sep then String.mk acc.reverse :: splitCharAux sep rest []
    else splitCharAux sep rest (c :: acc)

/-- `sdssplitlen(s, len, sep, 1, &count)` (vendored sds library) for a
single-character separator: the empty string yields zero tokens (`sdssplitlen`
sets `*count = 0` and returns no elements when `len == 0`); a nonempty string
with `n` separators yields `n + 1` tokens. -/
def splitSds (s : String) (sep : Char) : List String :=
  if s.data = [] then [] else splitCharAux sep s.data []

/-- `sdstrim(s, " ")` (vendored sds library): removes the characters of the
given set — here only the space character U+0020 — from both ends. -/
def trimSpaces (s : String) : String :=
  String.mk (((s.data.dropWhile (· = ' ')).reverse.dropWhile (· = ' ')).reverse)

/-- ASCII uppercase/lowercase letter pairs. -/
def asciiPairs : List (Char × Char) :=
  [('A', 'a'), ('B', 'b'), ('C', 'c'), ('D', 'd'), ('E', 'e'), ('F', 'f'),
   ('G', 'g'), ('H', 'h'), ('I', 'i'), ('J', 'j'), ('K', 'k'), ('L', 'l'),
   ('M', 'm'), ('N', 'n'), ('O', 'o'), ('P', 'p'), ('Q', 'q'), ('R', 'r'),
   ('S', 's'), ('T', 't'), ('U', 'u'), ('V', 'v'), ('W', 'w'), ('X', 'x'),
   ('Y', 'y'), ('Z', 'z')]

/-- Lower-case a single character (ASCII case folding). -/
def lowerChar (c : Char) : Char :=
  match asciiPairs.lookup c with
  | some l => l
  | none => c

/-- Modelled from the spec: `sds_utf8_tolower` (src/lib/sds_extras.c is not in
the sources) — lower-cases a string using case folding; modelled as per-character
ASCII case folding. -/
def sds_utf8_tolower (s : String) : String :=
  String.mk (s.data.map lowerChar)

/-- Hexadecimal digit characters, for escaping control characters. -/
def hexDigit (n : Nat) : Char :=
  "0123456789abcdef".data.getD n '0'

/-- Modelled from the spec: the escaping of a single character performed by
`sds_catjson`/`sds_catjson_plain` (src/lib/sds_extras.c is not in the sources):
"must escape control characters, quotes, backslashes per standard
string-encoding rules". -/
def jsonEscapeChar (c : Char) : String :=
  if c = '"' then "\\\""
  else if c = '\\' then "\\\\"
  else if c = '\n' then "\\n"
  else if c = '\t' then "\\t"
  else if c = '\r' then "\\r"
  else if c.toNat < 32 then
    String.mk ['\\', 'u', '0', '0', hexDigit (c.toNat / 16), hexDigit (c.toNat % 16)]
  else String.singleton c

/-- Modelled from the spec: body escaping of a whole string. -/
def jsonEscape (s : String) : String :=
  String.join (s.data.map jsonEscapeChar)

/-- Modelled from the spec: `sds_catjson` (src/lib/sds_extras.c is not in the
sources) appends a double-quoted, escaped JSON string to the buffer. -/
def sds_catjson (s v : String) : String :=
  s ++ "\"" ++ jsonEscape v ++ "\""

/-- Modelled from the spec: `sds_catjson_plain` (src/lib/sds_extras.c is not in
the sources) appends the escaped body without surrounding quotes. -/
def sds_catjson_plain (s v : String) : String :=
  s ++ jsonEscape v

/-- Modelled from the spec: `basename_uri` (src/lib/utility.c is not in the
sources) — reduces a URI to its base filename component: "path separator
stripped, extension and directory removed per the platform's basename rule";
the directory part up to the last '/' and the extension from the last '.' are
removed. -/
def basename_uri (uri : String) : String :=
  let base := (uri.data.reverse.takeWhile (· ≠ '/')).reverse
  let noExt :=
    if base.contains '.' then ((base.reverse.dropWhile (· ≠ '.')).drop 1).reverse
    else base
  String.mk noExt

/-! ## The song structure -/

/-- `struct mpd_song` restricted to the fields this core reads; the per-tag
singly-linked value lists become `List String`. -/
structure Song where
  uri : String
  tags : TagType → List String
  duration : Nat
  last_modified : Int

/-- A song whose tags are entirely unknown: used to relate
`get_empty_song_tags` to `get_song_tags`. -/
def emptySong (uri : String) : Song :=
  { uri := uri, tags := fun _ => [], duration := 0, last_modified := 0 }

/-! ## TagStore: mympd_mpd_song_add_tag_dedup -/

/-- `mympd_mpd_song_add_tag_dedup`: adds a tag value to the song if the value
does not already exist. `ty` is the raw enum value (may be out of range, e.g.
`MPD_TAG_UNKNOWN = -1`); `strdupOk` models whether `strdup` of the value
succeeds (allocation). Returns the C function's boolean result and the updated
song. -/
def mympd_mpd_song_add_tag_dedup (song : Song) (ty : Int) (value : String)
    (strdupOk : Bool) : Bool × Song :=
  if ty < 0 ∨ MPD_TAG_COUNT ≤ ty then
    (false, song)
  else
    match tagOfInt ty with
    | none => (false, song)
    | some t =>
      match song.tags t with
      | [] =>
        if strdupOk then
          (true, { song with tags := Function.update song.tags t [value] })
        else
          (false, song)
      | vs =>
        if value ∈ vs then
          (false, song)
        else if strdupOk then
          (true, { song with tags := Function.update song.tags t (vs ++ [value]) })
        else
          (false, song)

/-! ## Category classification -/

/-- `is_multivalue_tag`. -/
def is_multivalue_tag : TagType → Bool
  | .artist => true
  | .artistSort => true
  | .albumArtist => true
  | .albumArtistSort => true
  | .genre => true
  | .composer => true
  | .composerSort => true
  | .performer => true
  | .conductor => true
  | .ensemble => true
  | .musicbrainzArtistId => true
  | .musicbrainzAlbumArtistId => true
  | _ => false

/-- `get_sort_tag`. -/
def get_sort_tag : TagType → TagType
  | .artist => .artistSort
  | .albumArtist => .albumArtistSort
  | .album => .albumSort
  | .composer => .composerSort
  | t => t

/-! ## TagSerializer: private renderers -/

/-- `_mpd_client_get_tag_value_string`: appends a comma separated list of tag
values to `tag_values`; also yields the written `*value_count`. -/
def _mpd_client_get_tag_value_string (song : Song) (tag : TagType)
    (tag_values : String) : String × Nat :=
  match song.tags tag with
  | [] => (tag_values, 0)
  | vs => (tag_values ++ joinSep ", " vs, vs.length)

/-- The `mpd_song_get_tag(song, tag, 0) != NULL && mpd_song_get_tag(song, tag, 1) == NULL`
test: the tag holds exactly one value (and the tag is one of the two
MusicBrainz identifier tags). -/
def mbSingleValue (song : Song) (tag : TagType) : Option String :=
  if tag = .musicbrainzAlbumArtistId ∨ tag = .musicbrainzArtistId then
    match song.tags tag with
    | [v] => some v
    | _ => none
  else none

/-- `_mpd_client_get_tag_values`: appends a json string or array to
`tag_values`; also yields the written `*value_count`. On zero values the C
code truncates the buffer back to its original length (`sdssubstr`), so the
buffer is returned unchanged. -/
def _mpd_client_get_tag_values (song : Song) (tag : TagType)
    (tag_values : String) (multi : Bool) : String × Nat :=
  if multi then
    match mbSingleValue song tag with
    | some value =>
      -- semicolon separated MUSICBRAINZ_ARTISTID / MUSICBRAINZ_ALBUMARTISTID workaround
      let tokens := (splitSds value ';').map trimSpaces
      if 0 < tokens.length then
        (tag_values ++ "[" ++ joinSep "," (tokens.map (fun tok => "\"" ++ jsonEscape tok ++ "\"")) ++ "]",
         tokens.length)
      else (tag_values, 0)
    | none =>
      match song.tags tag with
      | [] => (tag_values, 0)
      | vs =>
        (tag_values ++ "[" ++ joinSep "," (vs.map (fun v => "\"" ++ jsonEscape v ++ "\"")) ++ "]",
         vs.length)
  else
    match song.tags tag with
    | [] => (tag_values, 0)
    | vs => (tag_values ++ "\"" ++ joinSep ", " (vs.map jsonEscape) ++ "\"", vs.length)

/-! ## TagSerializer: public renderers -/

/-- `mpd_client_get_tag_value_string`: returns a comma separated list of tag
values, with the Title → Name → URI-basename fallback chain. The C code
appends the URI to the buffer and applies `basename_uri` to the whole buffer. -/
def mpd_client_get_tag_value_string (song : Song) (tag : TagType)
    (tag_values : String) : String :=
  let r := _mpd_client_get_tag_value_string song tag tag_values
  if r.2 = 0 then
    if tag = .title then
      -- title fallback to name
      let r2 := _mpd_client_get_tag_value_string song .name r.1
      if r2.2 = 0 then
        -- title fallback to filename
        basename_uri (r2.1 ++ song.uri)
      else r2.1
    else r.1
  else r.1

/-- `mpd_client_get_tag_values`: returns a json string/array of tag values,
with the Title fallback chain and the "-" placeholder for other empty tags. -/
def mpd_client_get_tag_values (song : Song) (tag : TagType)
    (tag_values : String) : String :=
  let multi := is_multivalue_tag tag
  let r := _mpd_client_get_tag_values song tag tag_values multi
  if r.2 = 0 then
    if tag = .title then
      -- title fallback to name
      let r2 := _mpd_client_get_tag_values song .name r.1 multi
      if r2.2 = 0 then
        -- title fallback to filename
        sds_catjson r2.1 (basename_uri song.uri)
      else r2.1
    else
      -- replace empty tag value(s) with dash
      if multi then r.1 ++ "[\"-\"]" else r.1 ++ "\"-\""
  else r.1

/-! ## JSON field helpers (lib/jsonrpc.c) -/

/-- Modelled from the spec: `tojson_uint` (src/lib/jsonrpc.c is not in the
sources) — appends a `"key":value` pair for an unsigned integer, with an
optional trailing comma. -/
def tojson_uint (buffer key : String) (value : Nat) (comma : Bool) : String :=
  buffer ++ "\"" ++ key ++ "\":" ++ toString value ++ (if comma then "," else "")

/-- Modelled from the spec: `tojson_llong`/`tojson_long` (src/lib/jsonrpc.c is
not in the sources) — appends a `"key":value` pair for a signed integer. -/
def tojson_llong (buffer key : String) (value : Int) (comma : Bool) : String :=
  buffer ++ "\"" ++ key ++ "\":" ++ toString value ++ (if comma then "," else "")

/-- Modelled from the spec: `tojson_char`/`tojson_sds` (src/lib/jsonrpc.c is
not in the sources) — appends a `"key":"escaped value"` pair. -/
def tojson_char (buffer key value : String) (comma : Bool) : String :=
  sds_catjson (buffer ++ "\"" ++ key ++ "\":") value ++ (if comma then "," else "")

/-! ## Bulk renderers -/

/-- `get_song_tags`: renders every requested tag of a song plus the fixed
Duration/LastModified/uri fields; `feat_mpd_tags` is the only field of
`struct t_mpd_state` this function reads. -/
def get_song_tags (buffer : String) (feat_mpd_tags : Bool)
    (tagcols : List TagType) (song : Song) : String :=
  let buffer :=
    if feat_mpd_tags then
      tagcols.foldl
        (fun b t =>
          mpd_client_get_tag_values song t (b ++ "\"" ++ mpd_tag_name t ++ "\":") ++ ",")
        buffer
    else
      mpd_client_get_tag_values song .title (buffer ++ "\"Title\":") ++ ","
  let buffer := tojson_uint buffer "Duration" song.duration true
  let buffer := tojson_llong buffer "LastModified" song.last_modified true
  tojson_char buffer "uri" song.uri false

/-- `get_empty_song_tags`: renders the same record shape for a song whose tags
are entirely unknown. -/
def get_empty_song_tags (buffer : String) (feat_mpd_tags : Bool)
    (tagcols : List TagType) (uri : String) : String :=
  let filename := basename_uri uri
  let buffer :=
    if feat_mpd_tags then
      tagcols.foldl
        (fun b t =>
          let multi := is_multivalue_tag t
          let b := b ++ "\"" ++ mpd_tag_name t ++ "\":"
          let b := if multi then b ++ "[" else b
          let b := if t = .title then sds_catjson b filename else b ++ "\"-\""
          let b := if multi then b ++ "]" else b
          b ++ ",")
        buffer
    else
      tojson_char buffer "Title" filename true
  let buffer := tojson_llong buffer "Duration" 0 true
  let buffer := tojson_llong buffer "LastModified" 0 true
  tojson_char buffer "uri" uri false

/-! ## TagFilterMatcher -/

/-- `strstr(value, searchstr) != NULL`: substring test. -/
def strstrB (value searchstr : String) : Bool :=
  decide (searchstr.data <:+: value.data)

/-- `filter_mpd_song`: case-insensitive substring search over the tag values
of the enabled tags. The C code reuses one growing `value` buffer across the
loop iterations without resetting it. -/
def filter_mpd_song (song : Song) (searchstr : String)
    (tagcols : List TagType) : Bool :=
  if searchstr.length = 0 then true
  else
    (tagcols.foldl
      (fun (acc : String × Bool) t =>
        let value := (_mpd_client_get_tag_values song t acc.1 false).1
        let value := sds_utf8_tolower value
        (value, if strstrB value searchstr then true else acc.2))
      ("", false)).2

/-! ## TagTypeRegistry -/

/-- `mpd_client_tag_exists`: linear membership scan. -/
def mpd_client_tag_exists (tagtypes : List TagType) (tag : TagType) : Bool :=
  tagtypes.contains tag

/-- `mpd_tag_name_iparse` (libmpdclient): case-insensitive tag name lookup;
`MPD_TAG_UNKNOWN` is modelled as `none`. -/
def mpd_tag_name_iparse (s : String) : Option TagType :=
  allTags.find? (fun t => sds_utf8_tolower (mpd_tag_name t) = sds_utf8_tolower s)

/-- `check_tags`: splits the configuration string on ',', trims spaces from
each token, resolves each token case-insensitively, drops unresolved tokens
and tokens not in the allow-list, appends the rest to `tagtypes` (logging is
not modelled). -/
def check_tags (taglist : String) (tagtypes : List TagType)
    (allowed_tag_types : List TagType) : List TagType :=
  (splitSds taglist ',').foldl
    (fun tagtypes tok =>
      let tok := trimSpaces tok
      match mpd_tag_name_iparse tok with
      | none => tagtypes
      | some tag =>
        if mpd_client_tag_exists allowed_tag_types tag then tagtypes ++ [tag]
        else tagtypes)
    tagtypes

/-! ## Atomic file writer (src/lib/filehandler.c) -/

/-- The file system: an association from paths to file contents (byte lists).
Lookup finds the most recent binding. -/
def FS : Type := List (String × List Char)

/-- Read a file's content. -/
def fsRead (fs : FS) (p : String) : Option (List Char) :=
  List.lookup p fs

/-- Create or replace a file. -/
def fsWrite (fs : FS) (p : String) (c : List Char) : FS :=
  (p, c) :: fs

/-- `unlink`: remove a file. -/
def fsRemove (fs : FS) (p : String) : FS :=
  fs.filter (fun e => e.1 ≠ p)

/-- The outcomes of the C library calls `write_data_to_file` depends on;
abstracted as an oracle so that every failure path is reachable. `written` is
the byte count that `fwrite` reports. -/
structure IoEnv where
  mkstempOk : Bool
  suffix : String
  fdopenOk : Bool
  written : Nat
  fcloseOk : Bool
  renameOk : Bool

/-- Result of `open_tmp_file`: `mkstemp` failed (no file created), `fdopen`
failed (the temporary file was created but no stream attached), or success. -/
inductive OpenResult where
  | noFile
  | noStream
  | ok
deriving DecidableEq, Repr

/-- `open_tmp_file`: `mkstemp` creates the (empty) temporary file, then
`fdopen` attaches a stream. On `fdopen` failure the created file remains. -/
def open_tmp_file (fs : FS) (tmp_file : String) (env : IoEnv) : OpenResult × FS :=
  if env.mkstempOk = false then (.noFile, fs)
  else
    let fs := fsWrite fs tmp_file []
    if env.fdopenOk = false then (.noStream, fs)
    else (.ok, fs)

/-- `rename_tmp_file`: closes the tmp file and moves it to its destination
name; on close/write/rename failure removes the tmp file. -/
def rename_tmp_file (fs : FS) (tmp_file filepath : String) (write_rc : Bool)
    (env : IoEnv) : Bool × FS :=
  if env.fcloseOk = false ∨ write_rc = false then
    (false, fsRemove fs tmp_file)
  else if env.renameOk = false then
    (false, fsRemove fs tmp_file)
  else
    (true, fsWrite (fsRemove fs tmp_file) filepath ((fsRead fs tmp_file).getD []))

/-- `write_data_to_file`: writes `data` to the sibling temporary file
`"<filepath>.XXXXXX"` (`mkstemp` replaces the X's, modelled by `env.suffix`)
and moves it over `filepath` via `rename_tmp_file`. -/
def write_data_to_file (fs : FS) (filepath : String) (data : List Char)
    (env : IoEnv) : Bool × FS :=
  let tmp_file := filepath ++ "." ++ env.suffix
  match open_tmp_file fs tmp_file env with
  | (.noFile, fs) => (false, fs)
  | (.noStream, fs) => (false, fs)
  | (.ok, fs) =>
    let written := min env.written data.length
    let fs := fsWrite fs tmp_file (data.take written)
    let write_rc := written = data.length
    rename_tmp_file fs tmp_file filepath (decide write_rc) env

/-! ## Helper lemmas -/

/-- `_mpd_client_get_tag_values` only appends to the buffer: the appended
fragment and the count are independent of the incoming buffer. -/
theorem tagValues_frag (song : Song) (tag : TagType) (buf : String) (multi : Bool) :
    _mpd_client_get_tag_values song tag buf multi
      = (buf ++ (_mpd_client_get_tag_values song tag "" multi).1,
         (_mpd_client_get_tag_values song tag "" multi).2) := by
  unfold _mpd_client_get_tag_values
  cases multi with
  | false =>
    simp only [Bool.false_eq_true, if_false]
    cases song.tags tag with
    | nil => simp [String.append_empty]
    | cons v vs => simp [String.append_assoc, String.empty_append]
  | true =>
    simp only [if_true]
    cases hmb : mbSingleValue song tag with
    | some v =>
      dsimp only
      split <;> simp [String.append_assoc, String.empty_append, String.append_empty]
    | none =>
      cases song.tags tag with
      | nil => simp [String.append_empty]
      | cons v vs => simp [String.append_assoc, String.empty_append]

/-- Same buffer-append property for the display-string renderer. -/
theorem tagValueString_frag (song : Song) (tag : TagType) (buf : String) :
    _mpd_client_get_tag_value_string song tag buf
      = (buf ++ (_mpd_client_get_tag_value_string song tag "").1,
         (_mpd_client_get_tag_value_string song tag "").2) := by
  unfold _mpd_client_get_tag_value_string
  cases song.tags tag with
  | nil => simp [String.append_empty]
  | cons v vs => simp [String.empty_append]

/-- On an empty tag list the multivalue renderer leaves the buffer unchanged
and reports zero values. -/
theorem tagValues_nil (song : Song) (tag : TagType) (buf : String) (multi : Bool)
    (h : song.tags tag = []) :
    _mpd_client_get_tag_values song tag buf multi = (buf, 0) := by
  have hmb : mbSingleValue song tag = none := by
    unfold mbSingleValue
    rw [h]
    split <;> rfl
  unfold _mpd_client_get_tag_values
  rw [hmb, h]
  cases multi <;> rfl

/-! ## Claim theorems -/

/-- C7: `is_multivalue_tag` is a pure, total function over the fixed tag
enumeration, returning true exactly for artist, artist-sort, album-artist,
album-artist-sort, genre, composer, composer-sort, performer, conductor,
ensemble and the two MusicBrainz artist/album-artist identifier categories
and false for every other category; and `get_sort_tag` maps
artist→artist-sort, album-artist→album-artist-sort, album→album-sort,
composer→composer-sort, and every other category to itself. Both are plain
functions of the tag alone, consulting no registry state. -/
theorem multivalue_and_sort_tag_classification :
    (∀ t : TagType,
      is_multivalue_tag t =
        decide (t ∈ ([.artist, .artistSort, .albumArtist, .albumArtistSort,
                      .genre, .composer, .composerSort, .performer, .conductor,
                      .ensemble, .musicbrainzArtistId,
                      .musicbrainzAlbumArtistId] : List TagType)))
    ∧ (∀ t : TagType,
      get_sort_tag t =
        if t = .artist then .artistSort
        else if t = .albumArtist then .albumArtistSort
        else if t = .album then .albumSort
        else if t = .composer then .composerSort
        else t) := by
  constructor <;> decide

/-- C4: in structured mode, for every requested category other than Title
whose store holds zero values, the renderer emits the single placeholder
value "-": as the one-element array `["-"]` when the category is
multi-valued and as the scalar `"-"` when it is single-valued, never an
empty array or absent field. -/
theorem empty_tag_placeholder (song : Song) (tag : TagType) (buf : String)
    (hne : tag ≠ TagType.title) (hempty : song.tags tag = []) :
    mpd_client_get_tag_values song tag buf =
      buf ++ (if is_multivalue_tag tag then "[\"-\"]" else "\"-\"") := by
  unfold mpd_client_get_tag_values
  simp only [tagValues_nil song tag buf _ hempty]
  cases h : is_multivalue_tag tag <;> simp [hne, h]

/-- Witness for C4 at a concrete input: the multi-valued Artist category with
zero values renders as `["-"]`. -/
theorem empty_tag_placeholder_witness :
    mpd_client_get_tag_values (emptySong "u") .artist "" = "[\"-\"]" := by
  have h := empty_tag_placeholder (emptySong "u") .artist "" (by decide) rfl
  rw [h]
  decide

/-- C10 (implicit): in display-string mode, for every requested category other
than Title whose store holds zero values, the function returns the output
buffer unchanged — no "-" placeholder and no fallback. -/
theorem display_empty_tag_unchanged (song : Song) (tag : TagType) (buf : String)
    (hne : tag ≠ TagType.title) (hempty : song.tags tag = []) :
    mpd_client_get_tag_value_string song tag buf = buf := by
  unfold mpd_client_get_tag_value_string _mpd_client_get_tag_value_string
  rw [hempty]
  simp [hne]

/-- Witness for C10 at a concrete input: Artist with zero values leaves the
buffer unchanged. -/
theorem display_empty_tag_unchanged_witness :
    mpd_client_get_tag_value_string (emptySong "u") .artist "pre" = "pre" :=
  display_empty_tag_unchanged (emptySong "u") .artist "pre" (by decide) rfl

/-- C3: in both display-string mode and structured mode, when the requested
category is Title and the store holds zero Title values, the renderer falls
back first to the Name category's values rendered the same way and, if Name
is also empty, to the base filename component of the song's URI (directory
and extension removed per the basename rule). -/
theorem title_fallback_chain (song : Song) (buf : String)
    (htitle : song.tags .title = []) :
    (song.tags .name ≠ [] →
      mpd_client_get_tag_value_string song .title buf
          = buf ++ joinSep ", " (song.tags .name)
      ∧ mpd_client_get_tag_values song .title buf
          = buf ++ "\"" ++ joinSep ", " ((song.tags .name).map jsonEscape) ++ "\"")
    ∧ (song.tags .name = [] →
      mpd_client_get_tag_value_string song .title ""
          = basename_uri song.uri
      ∧ mpd_client_get_tag_values song .title buf
          = buf ++ "\"" ++ jsonEscape (basename_uri song.uri) ++ "\"") := by
  constructor
  · intro hname
    constructor
    · unfold mpd_client_get_tag_value_string _mpd_client_get_tag_value_string
      rw [htitle]
      cases hn : song.tags .name with
      | nil => exact absurd hn hname
      | cons v vs => simp
    · unfold mpd_client_get_tag_values
      simp only [tagValues_nil song .title buf _ htitle]
      unfold _mpd_client_get_tag_values
      have hmulti : is_multivalue_tag TagType.title = false := rfl
      rw [hmulti]
      cases hn : song.tags .name with
      | nil => exact absurd hn hname
      | cons v vs => simp
  · intro hname
    constructor
    · unfold mpd_client_get_tag_value_string _mpd_client_get_tag_value_string
      rw [htitle, hname]
      simp [String.empty_append]
    · unfold mpd_client_get_tag_values
      simp only [tagValues_nil song .title buf _ htitle]
      simp only [tagValues_nil song .name buf _ hname]
      simp [sds_catjson, String.append_assoc]

/-- Witness for C3 at the spec's example: Title and Name empty with URI
"music/Foo.mp3" renders Title as "Foo" in display mode and as the escaped
scalar in structured mode. -/
theorem title_fallback_chain_witness :
    mpd_client_get_tag_value_string (emptySong "music/Foo.mp3") .title "" = "Foo"
    ∧ mpd_client_get_tag_values (emptySong "music/Foo.mp3") .title "" = "\"Foo\"" := by
  have h := (title_fallback_chain (emptySong "music/Foo.mp3") "" rfl).2 rfl
  refine ⟨h.1.trans (by decide), h.2.trans (by decide)⟩

/-- A value found by `tagOfInt` has the looked-up numeric value, which lies in
the valid range. -/
theorem tagOfInt_some_range (ty : Int) (t : TagType) (h : tagOfInt ty = some t) :
    tagVal t = ty ∧ 0 ≤ ty ∧ ty < MPD_TAG_COUNT := by
  have hp := List.find?_some h
  have heq : tagVal t = ty := of_decide_eq_true hp
  have hrange : ∀ u : TagType, 0 ≤ tagVal u ∧ tagVal u < MPD_TAG_COUNT := by decide
  exact ⟨heq, heq ▸ (hrange t).1, heq ▸ (hrange t).2⟩

/-- C1: for every song, tag category, and value, `mympd_mpd_song_add_tag_dedup`
returns false and leaves the song's tag lists unchanged whenever it fails —
the category is outside the enumeration, the value is already present
byte-for-byte in that category's list, or storing the value fails — and
otherwise appends the value at the end of that category's list and returns
true; calling it twice with the same (category, value) stores exactly one
copy and the second call returns false. -/
theorem add_tag_dedup_spec (song : Song) (ty : Int) (value : String) (ok ok2 : Bool) :
    ((ty < 0 ∨ MPD_TAG_COUNT ≤ ty) →
      mympd_mpd_song_add_tag_dedup song ty value ok = (false, song))
    ∧ (∀ t : TagType, tagOfInt ty = some t →
        (value ∈ song.tags t →
          mympd_mpd_song_add_tag_dedup song ty value ok = (false, song))
        ∧ (ok = false →
          mympd_mpd_song_add_tag_dedup song ty value ok = (false, song))
        ∧ (value ∉ song.tags t → ok = true →
            (mympd_mpd_song_add_tag_dedup song ty value ok).1 = true
            ∧ (mympd_mpd_song_add_tag_dedup song ty value ok).2.tags t
                = song.tags t ++ [value]
            ∧ (∀ t' : TagType, t' ≠ t →
                (mympd_mpd_song_add_tag_dedup song ty value ok).2.tags t'
                  = song.tags t')
            ∧ ((mympd_mpd_song_add_tag_dedup song ty value ok).2.tags t).count value = 1
            ∧ mympd_mpd_song_add_tag_dedup
                (mympd_mpd_song_add_tag_dedup song ty value ok).2 ty value ok2
                = (false, (mympd_mpd_song_add_tag_dedup song ty value ok).2))) := by
  constructor
  · intro hout
    unfold mympd_mpd_song_add_tag_dedup
    rw [if_pos hout]
  · intro t ht
    obtain ⟨hval, h0, hlt⟩ := tagOfInt_some_range ty t ht
    have hin : ¬(ty < 0 ∨ MPD_TAG_COUNT ≤ ty) := by omega
    refine ⟨?_, ?_, ?_⟩
    · intro hmem
      unfold mympd_mpd_song_add_tag_dedup
      rw [if_neg hin, ht]
      dsimp only
      cases hvs : song.tags t with
      | nil => rw [hvs] at hmem; exact absurd hmem (List.not_mem_nil value)
      | cons v vs =>
        rw [hvs] at hmem
        simp [hmem]
    · intro hok
      unfold mympd_mpd_song_add_tag_dedup
      rw [if_neg hin, ht, hok]
      dsimp only
      cases hvs : song.tags t with
      | nil => rfl
      | cons v vs =>
        simp
    · intro hmem hok
      have hres : mympd_mpd_song_add_tag_dedup song ty value ok
          = (true, { song with tags := Function.update song.tags t (song.tags t ++ [value]) }) := by
        unfold mympd_mpd_song_add_tag_dedup
        rw [if_neg hin, ht, hok]
        dsimp only
        cases hvs : song.tags t with
        | nil => simp
        | cons v vs =>
          rw [hvs] at hmem
          simp [hmem]
      rw [hres]
      refine ⟨rfl, Function.update_same t _ song.tags, fun t' ht' => Function.update_noteq ht' _ song.tags, ?_, ?_⟩
      · dsimp only
        rw [Function.update_same t _ song.tags]
        rw [List.count_append]
        rw [List.count_eq_zero.mpr hmem]
        simp
      · unfold mympd_mpd_song_add_tag_dedup
        rw [if_neg hin, ht]
        dsimp only
        rw [Function.update_same]
        cases hvs : song.tags t with
        | nil =>
          simp
        | cons v vs =>
          have hm : value ∈ (v :: vs) ++ [value] := by simp
          simp [hm]

/-- Witness for C1 at a concrete input: adding "v" to the empty Artist list
(enum value 0) succeeds, stores exactly one copy, and a second identical call
returns false without mutation. -/
theorem add_tag_dedup_spec_witness :
    (mympd_mpd_song_add_tag_dedup (emptySong "u") 0 "v" true).1 = true
    ∧ ((mympd_mpd_song_add_tag_dedup (emptySong "u") 0 "v" true).2.tags .artist).count "v" = 1
    ∧ mympd_mpd_song_add_tag_dedup
        (mympd_mpd_song_add_tag_dedup (emptySong "u") 0 "v" true).2 0 "v" true
        = (false, (mympd_mpd_song_add_tag_dedup (emptySong "u") 0 "v" true).2) := by
  have h := ((add_tag_dedup_spec (emptySong "u") 0 "v" true true).2 .artist (by decide)).2.2
    (by decide) rfl
  exact ⟨h.1, h.2.2.2.1, h.2.2.2.2⟩

/-- `splitCharAux` always yields at least one token. -/
theorem splitCharAux_ne_nil (sep : Char) (l acc : List Char) :
    splitCharAux sep l acc ≠ [] := by
  induction l generalizing acc with
  | nil => simp [splitCharAux]
  | cons c rest ih =>
    unfold splitCharAux
    split
    · simp
    · exact ih _

/-- A song holding the single MusicBrainz artist-id value "id1;\tid2"
(tab-separated second identifier). -/
def mbSplitSong : Song :=
  { uri := "u",
    tags := fun t => if t = .musicbrainzArtistId then ["id1;\tid2"] else [],
    duration := 0, last_modified := 0 }

/-- C2 counterexample: with a single raw value "id1;\tid2" in the MusicBrainz
artist-id category, the renderer splits on ';' but the second piece keeps its
leading tab (escaped as \t in the JSON output): surrounding whitespace is NOT
trimmed from each piece — only space characters are — so the output differs
from the whitespace-trimmed array the claim requires. -/
theorem musicbrainz_split_counterexample :
    mpd_client_get_tag_values mbSplitSong .musicbrainzArtistId ""
      = "[\"id1\",\"\\tid2\"]"
    ∧ "[\"id1\",\"\\tid2\"]" ≠ "[\"id1\",\"id2\"]" := by
  constructor
  · decide
  · decide

/-- C2 (amended): in structured rendering, for either MusicBrainz identifier
category, if the store holds exactly one nonempty raw value then the renderer
splits it on ';' (a nonempty value with no ';' stays whole), trims surrounding
space characters (U+0020 only) from each piece, and emits each piece as a
separately escaped array element; a single empty raw value yields zero pieces
(`sdssplitlen` returns no tokens for an empty string) and falls through to the
`["-"]` placeholder; if the store holds two or more raw values, no split is
attempted and each stored value is emitted unsplit. -/
theorem musicbrainz_split_amended (song : Song) (buf : String) (tag : TagType)
    (htag : tag = TagType.musicbrainzArtistId ∨ tag = TagType.musicbrainzAlbumArtistId) :
    (∀ v, song.tags tag = [v] → v ≠ "" →
      mpd_client_get_tag_values song tag buf
        = buf ++ "[" ++ joinSep ","
            (((splitSds v ';').map trimSpaces).map
              (fun tok => "\"" ++ jsonEscape tok ++ "\"")) ++ "]")
    ∧ (song.tags tag = [""] →
      mpd_client_get_tag_values song tag buf = buf ++ "[\"-\"]")
    ∧ (∀ vs, song.tags tag = vs → 2 ≤ vs.length →
      mpd_client_get_tag_values song tag buf
        = buf ++ "[" ++ joinSep "," (vs.map (fun v => "\"" ++ jsonEscape v ++ "\"")) ++ "]") := by
  have hmulti : is_multivalue_tag tag = true := by
    rcases htag with h | h <;> subst h <;> rfl
  have hne_title : tag ≠ TagType.title := by
    rcases htag with h | h <;> subst h <;> decide
  refine ⟨?_, ?_, ?_⟩
  · intro v hv hvne
    have hmb : mbSingleValue song tag = some v := by
      unfold mbSingleValue
      rw [hv]
      rcases htag with h | h <;> subst h <;> simp
    have hvd : v.data ≠ [] := by
      intro h0
      exact hvne (String.ext (h0.trans rfl))
    have hsplit : splitSds v ';' = splitCharAux ';' v.data [] := by
      unfold splitSds
      rw [if_neg hvd]
    have hsne : splitSds v ';' ≠ [] := by
      rw [hsplit]
      exact splitCharAux_ne_nil ';' v.data []
    have hlen : 0 < ((splitSds v ';').map trimSpaces).length := by
      rw [List.length_map, hsplit]
      exact List.length_pos.mpr (splitCharAux_ne_nil ';' v.data [])
    have hfrag : _mpd_client_get_tag_values song tag buf true
        = (buf ++ "[" ++ joinSep ","
            (((splitSds v ';').map trimSpaces).map
              (fun tok => "\"" ++ jsonEscape tok ++ "\"")) ++ "]",
           ((splitSds v ';').map trimSpaces).length) := by
      unfold _mpd_client_get_tag_values
      simp only [hmb]
      simp [hlen, hsne]
    have hlen' : ((splitSds v ';').map trimSpaces).length ≠ 0 :=
      Nat.pos_iff_ne_zero.mp hlen
    unfold mpd_client_get_tag_values
    simp only [hmulti, hfrag, hlen', if_false]
  · intro hv
    have hmb : mbSingleValue song tag = some "" := by
      unfold mbSingleValue
      rw [hv]
      rcases htag with h | h <;> subst h <;> simp
    have hsplit : splitSds "" ';' = [] := rfl
    have hfrag : _mpd_client_get_tag_values song tag buf true = (buf, 0) := by
      unfold _mpd_client_get_tag_values
      simp only [hmb]
      simp [hsplit]
    unfold mpd_client_get_tag_values
    simp only [hmulti, hfrag]
    simp [hne_title]
  · intro vs hv hlen2
    obtain ⟨x, y, rest, hshape⟩ : ∃ x y rest, vs = x :: y :: rest := by
      match vs, hlen2 with
      | x :: y :: rest, _ => exact ⟨x, y, rest, rfl⟩
    subst hshape
    have hmb : mbSingleValue song tag = none := by
      unfold mbSingleValue
      rw [hv]
      rcases htag with h | h <;> subst h <;> simp
    have hfrag : _mpd_client_get_tag_values song tag buf true
        = (buf ++ "[" ++ joinSep ","
            ((x :: y :: rest).map (fun v => "\"" ++ jsonEscape v ++ "\"")) ++ "]",
           (x :: y :: rest).length) := by
      unfold _mpd_client_get_tag_values
      simp only [hmb, hv]
      simp
    unfold mpd_client_get_tag_values
    simp only [hmulti, hfrag]
    simp

/-- Witness for C2 (amended) at the spec's examples plus the empty-value
edge: a single raw value "id1; id2" is split and space-trimmed into two
elements; a single empty raw value renders as the placeholder; the two stored
raw values "id1" and "id2;id3" are rendered as two elements with the second
left unsplit. -/
theorem musicbrainz_split_amended_witness :
    mpd_client_get_tag_values
      { uri := "u",
        tags := fun t => if t = .musicbrainzArtistId then ["id1; id2"] else [],
        duration := 0, last_modified := 0 } .musicbrainzArtistId ""
      = "[\"id1\",\"id2\"]"
    ∧ mpd_client_get_tag_values
      { uri := "u",
        tags := fun t => if t = .musicbrainzArtistId then [""] else [],
        duration := 0, last_modified := 0 } .musicbrainzArtistId ""
      = "[\"-\"]"
    ∧ mpd_client_get_tag_values
      { uri := "u",
        tags := fun t => if t = .musicbrainzArtistId then ["id1", "id2;id3"] else [],
        duration := 0, last_modified := 0 } .musicbrainzArtistId ""
      = "[\"id1\",\"id2;id3\"]" := by
  refine ⟨?_, ?_, ?_⟩
  · have h := (musicbrainz_split_amended
      { uri := "u",
        tags := fun t => if t = .musicbrainzArtistId then ["id1; id2"] else [],
        duration := 0, last_modified := 0 } "" .musicbrainzArtistId (Or.inl rfl)).1
      "id1; id2" (by decide) (by decide)
    exact h.trans (by decide)
  · have h := (musicbrainz_split_amended
      { uri := "u",
        tags := fun t => if t = .musicbrainzArtistId then [""] else [],
        duration := 0, last_modified := 0 } "" .musicbrainzArtistId (Or.inl rfl)).2.1
      (by decide)
    exact h.trans (by decide)
  · have h := (musicbrainz_split_amended
      { uri := "u",
        tags := fun t => if t = .musicbrainzArtistId then ["id1", "id2;id3"] else [],
        duration := 0, last_modified := 0 } "" .musicbrainzArtistId (Or.inl rfl)).2.2
      ["id1", "id2;id3"] (by decide) (by decide)
    exact h.trans (by decide)

/-- The `check_tags` token loop appends, to whatever is already in
`tagtypes`, exactly the resolved-and-allowed tokens in first-seen order. -/
theorem check_tags_append (allowed : List TagType) (toks : List String)
    (init : List TagType) :
    toks.foldl
      (fun tagtypes tok =>
        let tok := trimSpaces tok
        match mpd_tag_name_iparse tok with
        | none => tagtypes
        | some tag =>
          if mpd_client_tag_exists allowed tag then tagtypes ++ [tag]
          else tagtypes)
      init
      = init ++ toks.filterMap (fun tok =>
          match mpd_tag_name_iparse (trimSpaces tok) with
          | none => none
          | some tag =>
            if mpd_client_tag_exists allowed tag then some tag else none) := by
  induction toks generalizing init with
  | nil => simp
  | cons tok rest ih =>
    simp only [List.foldl_cons, List.filterMap_cons]
    cases hi : mpd_tag_name_iparse (trimSpaces tok) with
    | none =>
      simp only [hi]
      rw [ih]
    | some tag =>
      simp only [hi]
      cases hex : mpd_client_tag_exists allowed tag with
      | false =>
        simp only [hex, Bool.false_eq_true, if_false]
        rw [ih]
      | true =>
        simp only [hex, if_true]
        rw [ih, List.append_assoc]
        rfl

/-- C6 counterexample: configuration "Artist,Artist,\tTitle" with allow-list
{Artist, Title, Album}: the code enables Artist twice — a category listed
twice is NOT enabled once — and drops "\tTitle" because the leading tab is
not trimmed (only spaces are), so Title is missing; the claim predicts the
enabled set [Artist, Title]. -/
theorem check_tags_counterexample :
    check_tags "Artist,Artist,\tTitle" [] [.artist, .title, .album]
      = [.artist, .artist]
    ∧ ([TagType.artist, TagType.artist] ≠ [TagType.artist, TagType.title]) := by
  constructor
  · decide
  · decide

/-- C6 (amended): `check_tags` splits the configuration string on ',', trims
surrounding space characters (U+0020 only) from each token, resolves each
token by case-insensitive name lookup, drops unresolved tokens (with a
warning) and tokens not in the allow-list (with a debug log), and appends the
remaining categories in first-seen order without collapsing duplicates: a
category listed twice is enabled twice. E.g. "Artist, Bogus, Title" with
allow-list {Artist, Title, Album} yields exactly [Artist, Title] in that
order. -/
theorem check_tags_amended (taglist : String) (allowed : List TagType) :
    check_tags taglist [] allowed
      = (splitSds taglist ',').filterMap (fun tok =>
          match mpd_tag_name_iparse (trimSpaces tok) with
          | none => none
          | some tag =>
            if mpd_client_tag_exists allowed tag then some tag else none)
    ∧ check_tags "Artist, Bogus, Title" [] [.artist, .title, .album]
        = [.artist, .title] := by
  constructor
  · unfold check_tags
    rw [check_tags_append allowed (splitSds taglist ',') []]
    simp
  · decide

/-- Closed form of the public structured renderer: the result is the buffer
followed by a fragment assembled from the private renderer's outputs at the
empty buffer. -/
theorem get_tag_values_closed (song : Song) (tag : TagType) (buf : String) :
    mpd_client_get_tag_values song tag buf
      = buf ++
        (if (_mpd_client_get_tag_values song tag "" (is_multivalue_tag tag)).2 = 0 then
          if tag = TagType.title then
            if (_mpd_client_get_tag_values song TagType.name "" (is_multivalue_tag tag)).2 = 0 then
              (_mpd_client_get_tag_values song tag "" (is_multivalue_tag tag)).1
                ++ (_mpd_client_get_tag_values song TagType.name "" (is_multivalue_tag tag)).1
                ++ "\"" ++ jsonEscape (basename_uri song.uri) ++ "\""
            else
              (_mpd_client_get_tag_values song tag "" (is_multivalue_tag tag)).1
                ++ (_mpd_client_get_tag_values song TagType.name "" (is_multivalue_tag tag)).1
          else
            (_mpd_client_get_tag_values song tag "" (is_multivalue_tag tag)).1
              ++ (if is_multivalue_tag tag then "[\"-\"]" else "\"-\"")
        else (_mpd_client_get_tag_values song tag "" (is_multivalue_tag tag)).1) := by
  unfold mpd_client_get_tag_values
  simp only [tagValues_frag song tag buf (is_multivalue_tag tag)]
  simp only [tagValues_frag song TagType.name
    (buf ++ (_mpd_client_get_tag_values song tag "" (is_multivalue_tag tag)).1)
    (is_multivalue_tag tag)]
  by_cases hz : (_mpd_client_get_tag_values song tag "" (is_multivalue_tag tag)).2 = 0
  · simp only [hz, if_pos rfl]
    by_cases ht : tag = TagType.title
    · simp only [ht, if_pos rfl]
      by_cases hz2 : (_mpd_client_get_tag_values song TagType.name "" (is_multivalue_tag TagType.title)).2 = 0
      · simp [hz2, sds_catjson, String.append_assoc]
      · simp [hz2, String.append_assoc]
    · simp only [if_neg ht, ht]
      cases is_multivalue_tag tag <;> simp [String.append_assoc]
  · simp [hz, String.append_assoc]

/-- The public structured renderer only appends to the buffer. -/
theorem get_tag_values_append (song : Song) (tag : TagType) (buf : String) :
    mpd_client_get_tag_values song tag buf
      = buf ++ mpd_client_get_tag_values song tag "" := by
  rw [get_tag_values_closed song tag buf, get_tag_values_closed song tag ""]
  rw [String.empty_append]

/-- Structured rendering of any tag of a song with no tag values: the Title
fallback reaches the URI basename, every other tag gets the placeholder. -/
theorem getTagValues_emptySong (uri : String) (t : TagType) (buf : String) :
    mpd_client_get_tag_values (emptySong uri) t buf
      = buf ++ (if t = TagType.title then "\"" ++ jsonEscape (basename_uri uri) ++ "\""
                else if is_multivalue_tag t then "[\"-\"]" else "\"-\"") := by
  have hnil : ∀ u : TagType, (emptySong uri).tags u = [] := fun _ => rfl
  unfold mpd_client_get_tag_values
  simp only [tagValues_nil (emptySong uri) t buf (is_multivalue_tag t) (hnil t)]
  by_cases ht : t = TagType.title
  · subst ht
    simp only [if_pos rfl]
    simp only [tagValues_nil (emptySong uri) .name buf (is_multivalue_tag TagType.title) (hnil .name)]
    simp [sds_catjson, String.append_assoc, emptySong]
  · simp only [if_neg ht, ht]
    cases hm : is_multivalue_tag t <;> simp [ht, hm]

/-- The tag loop of `get_song_tags` appends, per requested tag, the key and
the structured tag values followed by a comma. -/
theorem song_tags_foldl (song : Song) (cols : List TagType) (b : String) :
    cols.foldl
      (fun b t =>
        mpd_client_get_tag_values song t (b ++ "\"" ++ mpd_tag_name t ++ "\":") ++ ",")
      b
      = b ++ strConcat (cols.map (fun t =>
          "\"" ++ mpd_tag_name t ++ "\":" ++ mpd_client_get_tag_values song t "" ++ ",")) := by
  induction cols generalizing b with
  | nil => simp [strConcat]
  | cons t rest ih =>
    rw [List.foldl_cons, ih, List.map_cons]
    rw [get_tag_values_append song t (b ++ "\"" ++ mpd_tag_name t ++ "\":")]
    simp [strConcat, String.append_assoc]

/-- C8: `get_song_tags` renders every requested tag of a song plus the fixed
fields Duration, LastModified and uri into one structured record; and
`get_empty_song_tags` produces, for a song with no known tags, byte-for-byte
the record `get_song_tags` would produce for a song whose tag lists are all
empty with duration and last-modified zero — Title rendered as the URI
basename, every other requested tag as the "-" placeholder (array-wrapped for
multi-valued tags), Duration and LastModified as 0. -/
theorem song_tags_record :
    (∀ (buffer : String) (tagcols : List TagType) (song : Song),
      get_song_tags buffer true tagcols song
        = buffer
          ++ strConcat (tagcols.map (fun t =>
              "\"" ++ mpd_tag_name t ++ "\":" ++ mpd_client_get_tag_values song t "" ++ ","))
          ++ "\"Duration\":" ++ toString song.duration
          ++ ",\"LastModified\":" ++ toString song.last_modified
          ++ ",\"uri\":\"" ++ jsonEscape song.uri ++ "\"")
    ∧ (∀ (buffer : String) (feat : Bool) (tagcols : List TagType) (uri : String),
      get_empty_song_tags buffer feat tagcols uri
        = get_song_tags buffer feat tagcols (emptySong uri)) := by
  constructor
  · intro buffer tagcols song
    unfold get_song_tags
    simp only [if_pos rfl]
    rw [song_tags_foldl song tagcols buffer]
    unfold tojson_uint tojson_llong tojson_char sds_catjson
    refine String.ext ?_
    simp [String.data_append]
  · intro buffer feat tagcols uri
    have d3 : toString (0 : Int) = "0" := rfl
    have d4 : toString (0 : Nat) = "0" := rfl
    cases feat with
    | false =>
      unfold get_empty_song_tags get_song_tags
      simp only [Bool.false_eq_true, if_false]
      rw [getTagValues_emptySong uri .title (buffer ++ "\"Title\":")]
      unfold tojson_char tojson_uint tojson_llong sds_catjson
      refine String.ext ?_
      simp [emptySong, d3, d4, String.data_append]
    | true =>
      unfold get_empty_song_tags get_song_tags
      simp only [if_pos rfl]
      have hfold : ∀ (cols : List TagType) (b : String),
          cols.foldl
            (fun b t =>
              let multi := is_multivalue_tag t
              let b := b ++ "\"" ++ mpd_tag_name t ++ "\":"
              let b := if multi then b ++ "[" else b
              let b := if t = .title then sds_catjson b (basename_uri uri) else b ++ "\"-\""
              let b := if multi then b ++ "]" else b
              b ++ ",")
            b
          = cols.foldl
            (fun b t =>
              mpd_client_get_tag_values (emptySong uri) t (b ++ "\"" ++ mpd_tag_name t ++ "\":") ++ ",")
            b := by
        intro cols
        induction cols with
        | nil => intro b; rfl
        | cons t rest ih =>
          intro b
          rw [List.foldl_cons, List.foldl_cons, ih]
          congr 1
          rw [getTagValues_emptySong uri t (b ++ "\"" ++ mpd_tag_name t ++ "\":")]
          by_cases ht : t = TagType.title
          · subst ht
            simp only [show is_multivalue_tag TagType.title = false from rfl,
                       Bool.false_eq_true, if_false, if_pos rfl, sds_catjson]
            refine String.ext ?_
            simp [String.data_append]
          · simp only [if_neg ht, ht]
            cases hmv : is_multivalue_tag t with
            | false =>
              simp only [hmv, Bool.false_eq_true, if_false]
            | true =>
              simp only [hmv, if_true]
              refine String.ext ?_
              simp [String.data_append]
      rw [hfold tagcols buffer]
      unfold tojson_char tojson_uint tojson_llong sds_catjson
      refine String.ext ?_
      simp [emptySong, d3, d4, String.data_append]

/-- A successful association-list lookup means the pair is in the list. -/
theorem lookup_mem_pairs {l : List (Char × Char)} {a b : Char}
    (h : l.lookup a = some b) : (a, b) ∈ l := by
  induction l with
  | nil => simp [List.lookup] at h
  | cons p rest ih =>
    cases p with
    | mk k v =>
      simp only [List.lookup] at h
      cases hak : a == k with
      | true =>
        rw [hak] at h
        simp only at h
        cases h
        have : a = k := eq_of_beq hak
        subst this
        exact List.mem_cons_self _ _
      | false =>
        rw [hak] at h
        simp only at h
        exact List.mem_cons_of_mem _ (ih h)

/-- Lower-casing a character twice equals lower-casing it once. -/
theorem lowerChar_idem (c : Char) : lowerChar (lowerChar c) = lowerChar c := by
  cases h : asciiPairs.lookup c with
  | none => simp [lowerChar, h]
  | some l =>
    have hmem := lookup_mem_pairs h
    have hall : ∀ p ∈ asciiPairs, asciiPairs.lookup p.2 = none := by decide
    have hnone : asciiPairs.lookup l = none := hall (c, l) hmem
    simp [lowerChar, h, hnone]

/-- Lower-casing distributes over string concatenation. -/
theorem tolower_append (a b : String) :
    sds_utf8_tolower (a ++ b) = sds_utf8_tolower a ++ sds_utf8_tolower b := by
  refine String.ext ?_
  simp [sds_utf8_tolower, String.data_append]

/-- Lower-casing is idempotent. -/
theorem tolower_idem (a : String) :
    sds_utf8_tolower (sds_utf8_tolower a) = sds_utf8_tolower a := by
  refine String.ext ?_
  simp only [sds_utf8_tolower, List.map_map]
  exact List.map_congr_left (fun c _ => lowerChar_idem c)

/-- A substring of `s` is a substring of `s ++ t`. -/
theorem strstrB_mono (s t pat : String) (h : strstrB s pat = true) :
    strstrB (s ++ t) pat = true := by
  unfold strstrB at h ⊢
  rw [decide_eq_true_iff] at h ⊢
  rw [String.data_append]
  obtain ⟨u, v, huv⟩ := h
  exact ⟨u, v ++ t.data, by rw [← huv]; simp⟩

/-- The accumulated `value` buffer of the `filter_mpd_song` loop: starting
from an already lower-cased buffer `v`, the loop ends with `v` followed by the
lower-cased concatenation of the per-tag fragments. -/
theorem filter_fold_fst (song : Song) (pat : String) (cols : List TagType)
    (v : String) (b : Bool) (hv : sds_utf8_tolower v = v) :
    (cols.foldl
      (fun (acc : String × Bool) t =>
        let value := (_mpd_client_get_tag_values song t acc.1 false).1
        let value := sds_utf8_tolower value
        (value, if strstrB value pat then true else acc.2))
      (v, b)).1
      = v ++ sds_utf8_tolower (strConcat (cols.map (fun t =>
          (_mpd_client_get_tag_values song t "" false).1))) := by
  induction cols generalizing v b with
  | nil => simp [strConcat, sds_utf8_tolower, String.append_empty]
  | cons t rest ih =>
    rw [List.foldl_cons]
    dsimp only
    rw [tagValues_frag song t v false, tolower_append, hv]
    rw [ih (v ++ sds_utf8_tolower (_mpd_client_get_tag_values song t "" false).1)
          _ (by rw [tolower_append, hv, tolower_idem])]
    rw [List.map_cons]
    have : strConcat ((_mpd_client_get_tag_values song t "" false).1
        :: rest.map (fun t => (_mpd_client_get_tag_values song t "" false).1))
        = (_mpd_client_get_tag_values song t "" false).1
          ++ strConcat (rest.map (fun t => (_mpd_client_get_tag_values song t "" false).1)) := rfl
    rw [this, tolower_append, String.append_assoc]

/-- The boolean result of the `filter_mpd_song` loop is true iff it started
true or the search pattern occurs in the final accumulated buffer. -/
theorem filter_fold_snd (song : Song) (pat : String) (cols : List TagType)
    (v : String) (b : Bool) (hv : sds_utf8_tolower v = v)
    (hinv : strstrB v pat = true → b = true) :
    ((cols.foldl
      (fun (acc : String × Bool) t =>
        let value := (_mpd_client_get_tag_values song t acc.1 false).1
        let value := sds_utf8_tolower value
        (value, if strstrB value pat then true else acc.2))
      (v, b)).2 = true
      ↔ (b = true ∨ strstrB ((cols.foldl
            (fun (acc : String × Bool) t =>
              let value := (_mpd_client_get_tag_values song t acc.1 false).1
              let value := sds_utf8_tolower value
              (value, if strstrB value pat then true else acc.2))
            (v, b)).1) pat = true)) := by
  induction cols generalizing v b with
  | nil =>
    simp only [List.foldl_nil]
    constructor
    · intro hb; exact Or.inl hb
    · rintro (hb | hs)
      · exact hb
      · exact hinv hs
  | cons t rest ih =>
    rw [List.foldl_cons]
    dsimp only
    rw [tagValues_frag song t v false]
    set v' := sds_utf8_tolower (v ++ (_mpd_client_get_tag_values song t "" false).1) with hv'
    have hv'fix : sds_utf8_tolower v' = v' := by rw [hv']; exact tolower_idem _
    set b' : Bool := if strstrB v' pat = true then true else b with hb'
    have hinv' : strstrB v' pat = true → b' = true := by
      intro hs; rw [hb', if_pos hs]
    have hfin := filter_fold_fst song pat rest v' b' hv'fix
    have hpre : strstrB v' pat = true →
        strstrB ((rest.foldl
          (fun (acc : String × Bool) t =>
            let value := (_mpd_client_get_tag_values song t acc.1 false).1
            let value := sds_utf8_tolower value
            (value, if strstrB value pat then true else acc.2))
          (v', b')).1) pat = true := by
      intro hs
      rw [hfin]
      exact strstrB_mono _ _ _ hs
    rw [ih v' b' hv'fix hinv']
    constructor
    · rintro (hb2 | hs)
      · rw [hb'] at hb2
        by_cases hsv : strstrB v' pat = true
        · exact Or.inr (hpre hsv)
        · rw [if_neg hsv] at hb2
          exact Or.inl hb2
      · exact Or.inr hs
    · rintro (hb2 | hs)
      · exact Or.inl (by rw [hb']; by_cases hsv : strstrB v' pat = true
                         · rw [if_pos hsv]
                         · rw [if_neg hsv]; exact hb2)
      · exact Or.inr hs

/-- A song with Artist value "a" and Album value "b". -/
def abSong : Song :=
  { uri := "u",
    tags := fun t => if t = .artist then ["a"] else if t = .album then ["b"] else [],
    duration := 0, last_modified := 0 }

/-- C5 counterexample: with Artist = "a", Album = "b" and both categories
enabled, the search term a"\x22b (four characters: a, quote, quote, b) makes
`filter_mpd_song` return true — the loop's value buffer accumulates the
quoted rendering `"a"` then `"b"` of both categories without resetting — yet
the term is nonempty and is not a substring of any single category's
lower-cased plain display join, so the claim's biconditional fails. -/
theorem filter_counterexample :
    filter_mpd_song abSong "a\"\"b" [.artist, .album] = true
    ∧ ¬("a\"\"b" = "")
    ∧ (∀ t ∈ ([.artist, .album] : List TagType),
        strstrB (sds_utf8_tolower ((_mpd_client_get_tag_value_string abSong t "").1))
          "a\"\"b" = false) := by
  refine ⟨by decide, by decide, by decide⟩

/-- C5 (amended): `filter_mpd_song` returns true for every song when the
search term is empty; otherwise it returns true if and only if the
(pre-lowercased) search term occurs as a substring of the lower-cased
concatenation of the JSON string-mode renderings of all enabled categories —
the loop reuses one growing buffer across categories without resetting it
(each nonempty category contributes a double-quoted, escaped, comma-space
joined block), so a term spanning adjacent category blocks also matches, and
there is no early return on the first match. -/
theorem filter_matches_amended (song : Song) (searchstr : String)
    (tagcols : List TagType) :
    filter_mpd_song song searchstr tagcols = true
      ↔ (searchstr = ""
         ∨ strstrB (sds_utf8_tolower (strConcat (tagcols.map (fun t =>
              (_mpd_client_get_tag_values song t "" false).1)))) searchstr = true) := by
  unfold filter_mpd_song
  by_cases hlen : searchstr.length = 0
  · have hstr : searchstr = "" := by
      refine String.ext ?_
      have : searchstr.data.length = 0 := hlen
      simpa using List.length_eq_zero.mp this
    simp [hlen, hstr]
  · rw [if_neg hlen]
    have hemp : sds_utf8_tolower "" = "" := rfl
    have hinv : strstrB "" searchstr = true → (false : Bool) = true := by
      intro hs
      exfalso
      unfold strstrB at hs
      rw [decide_eq_true_iff] at hs
      obtain ⟨u, w, huw⟩ := hs
      have hnil : u ++ searchstr.data ++ w = [] := huw
      rcases List.append_eq_nil.mp hnil with ⟨h1, -⟩
      rcases List.append_eq_nil.mp h1 with ⟨-, h3⟩
      refine hlen ?_
      show searchstr.data.length = 0
      rw [h3]
      rfl
    have hsnd := filter_fold_snd song searchstr tagcols "" false hemp hinv
    have hfst := filter_fold_fst song searchstr tagcols "" false hemp
    rw [hsnd, hfst]
    have hne : ¬(searchstr = "") := fun h => hlen (by rw [h]; rfl)
    simp [hne, String.empty_append]

/-- Unfolding `List.lookup` at a non-matching head. -/
theorem lookup_cons_ne (fs : List (String × List Char)) (p k : String)
    (c : List Char) (h : (p == k) = false) :
    List.lookup p ((k, c) :: fs) = List.lookup p fs := by
  simp [List.lookup, h]

/-- Unfolding `List.lookup` at a matching head. -/
theorem lookup_cons_eq (fs : List (String × List Char)) (p k : String)
    (c : List Char) (h : (p == k) = true) :
    List.lookup p ((k, c) :: fs) = some c := by
  simp [List.lookup, h]

/-- Reading the path just written yields the new content. -/
theorem fsRead_write_same (fs : FS) (p : String) (c : List Char) :
    fsRead (fsWrite fs p c) p = some c := by
  simp [fsRead, fsWrite, List.lookup]

/-- Writing one path does not affect reads of another. -/
theorem fsRead_write_other (fs : FS) (p q : String) (c : List Char) (h : p ≠ q) :
    fsRead (fsWrite fs q c) p = fsRead fs p := by
  show List.lookup p ((q, c) :: fs) = fsRead fs p
  rw [lookup_cons_ne fs p q c (by simp [h])]
  rfl

/-- A removed path reads as absent. -/
theorem fsRead_remove_same (fs : FS) (p : String) :
    fsRead (fsRemove fs p) p = none := by
  induction fs with
  | nil => rfl
  | cons e rest ih =>
    obtain ⟨k, c⟩ := e
    show fsRead (List.filter (fun e => e.1 ≠ p) ((k, c) :: rest)) p = none
    rw [List.filter_cons]
    by_cases he : k = p
    · rw [if_neg (by simp [he])]
      exact ih
    · rw [if_pos (by simp [he])]
      show List.lookup p ((k, c) :: List.filter (fun e => e.1 ≠ p) rest) = none
      rw [lookup_cons_ne _ p k c (by simp [Ne.symm he])]
      exact ih

/-- Removing one path does not affect reads of another. -/
theorem fsRead_remove_other (fs : FS) (p q : String) (h : p ≠ q) :
    fsRead (fsRemove fs q) p = fsRead fs p := by
  induction fs with
  | nil => rfl
  | cons e rest ih =>
    obtain ⟨k, c⟩ := e
    show fsRead (List.filter (fun e => e.1 ≠ q) ((k, c) :: rest)) p
      = List.lookup p ((k, c) :: rest)
    rw [List.filter_cons]
    by_cases he : k = q
    · rw [if_neg (by simp [he])]
      rw [lookup_cons_ne rest p k c (by simp [he ▸ h])]
      exact ih
    · rw [if_pos (by simp [he])]
      by_cases hep : p = k
      · show List.lookup p ((k, c) :: List.filter (fun e => e.1 ≠ q) rest) = _
        rw [lookup_cons_eq _ p k c (by simp [hep]), lookup_cons_eq rest p k c (by simp [hep])]
      · show List.lookup p ((k, c) :: List.filter (fun e => e.1 ≠ q) rest) = _
        rw [lookup_cons_ne _ p k c (by simp [hep]), lookup_cons_ne rest p k c (by simp [hep])]
        exact ih

/-- The sibling temporary path differs from the destination path. -/
theorem tmp_ne_filepath (filepath sfx : String) :
    filepath ++ "." ++ sfx ≠ filepath := by
  intro h
  have hd : (filepath ++ "." ++ sfx).data.length = filepath.data.length := by rw [h]
  rw [String.data_append, String.data_append, List.length_append, List.length_append] at hd
  have h1 : (".".data).length = 1 := rfl
  omega

/-- An oracle where `mkstemp` succeeds but `fdopen` fails. -/
def leakEnv : IoEnv :=
  { mkstempOk := true, suffix := "ABCDEF", fdopenOk := false,
    written := 1, fcloseOk := true, renameOk := true }

/-- C9 counterexample: when `mkstemp` creates the temporary file but `fdopen`
fails, `write_data_to_file` returns false and the created temporary file
"f.ABCDEF" is left on disk — the claim's "on any open ... failure it removes
the temporary file" does not hold on this path (the destination is still
untouched). -/
theorem write_file_counterexample :
    (write_data_to_file [] "f" ['x'] leakEnv).1 = false
    ∧ fsRead (write_data_to_file [] "f" ['x'] leakEnv).2 "f.ABCDEF" = some []
    ∧ fsRead (write_data_to_file [] "f" ['x'] leakEnv).2 "f" = none := by
  refine ⟨by decide, by decide, by decide⟩

/-- C9 (amended): `write_data_to_file` writes the data to a sibling temporary
file and, only when every byte was written and the stream closed
successfully, renames it over the destination path and returns true; on a
write, close, or rename failure it removes the temporary file; if the
temporary file cannot be created nothing is written; if attaching a stream to
the just-created temporary file fails, the function returns false but the
empty temporary file is left behind; in every failure case the destination
path is untouched and false is returned — no partial file ever replaces the
original. -/
theorem write_data_atomic (fs : FS) (filepath : String) (data : List Char)
    (env : IoEnv)
    (hfresh : fsRead fs (filepath ++ "." ++ env.suffix) = none) :
    ((write_data_to_file fs filepath data env).1 = true →
        min env.written data.length = data.length
        ∧ env.fcloseOk = true ∧ env.renameOk = true
        ∧ fsRead (write_data_to_file fs filepath data env).2 filepath = some data
        ∧ fsRead (write_data_to_file fs filepath data env).2 (filepath ++ "." ++ env.suffix) = none)
    ∧ ((write_data_to_file fs filepath data env).1 = false →
        fsRead (write_data_to_file fs filepath data env).2 filepath = fsRead fs filepath)
    ∧ ((write_data_to_file fs filepath data env).1 = false →
        env.mkstempOk = true → env.fdopenOk = true →
        fsRead (write_data_to_file fs filepath data env).2 (filepath ++ "." ++ env.suffix) = none)
    ∧ (env.mkstempOk = false → write_data_to_file fs filepath data env = (false, fs))
    ∧ (env.mkstempOk = true → env.fdopenOk = false →
        (write_data_to_file fs filepath data env).1 = false
        ∧ fsRead (write_data_to_file fs filepath data env).2 (filepath ++ "." ++ env.suffix) = some []) := by
  have hne := tmp_ne_filepath filepath env.suffix
  have hne' : filepath ≠ filepath ++ "." ++ env.suffix := Ne.symm hne
  cases hmk : env.mkstempOk with
  | false =>
    have hres : write_data_to_file fs filepath data env = (false, fs) := by
      simp [write_data_to_file, open_tmp_file, hmk]
    rw [hres]
    refine ⟨fun h => absurd h (by simp), fun _ => rfl, fun _ hmk2 _ => ?_, fun _ => rfl,
            fun hmk2 _ => ?_⟩
    · simp [hmk] at hmk2
    · simp [hmk] at hmk2
  | true =>
    cases hfd : env.fdopenOk with
    | false =>
      have hres : write_data_to_file fs filepath data env
          = (false, fsWrite fs (filepath ++ "." ++ env.suffix) []) := by
        simp [write_data_to_file, open_tmp_file, hmk, hfd]
      rw [hres]
      refine ⟨fun h => absurd h (by simp), ?_, ?_, ?_, ?_⟩
      · intro _
        exact fsRead_write_other fs filepath (filepath ++ "." ++ env.suffix) [] hne'
      · intro _ _ hfd2
        simp [hfd] at hfd2
      · intro hmk2
        simp [hmk] at hmk2
      · intro _ _
        exact ⟨rfl, fsRead_write_same fs (filepath ++ "." ++ env.suffix) []⟩
    | true =>
      by_cases hwr : min env.written data.length = data.length
      · cases hfc : env.fcloseOk with
        | false =>
          have hres : write_data_to_file fs filepath data env
              = (false, fsRemove
                  (fsWrite (fsWrite fs (filepath ++ "." ++ env.suffix) [])
                    (filepath ++ "." ++ env.suffix) (data.take (min env.written data.length)))
                  (filepath ++ "." ++ env.suffix)) := by
            simp [write_data_to_file, open_tmp_file, rename_tmp_file, hmk, hfd, hfc]
          rw [hres]
          refine ⟨fun h => absurd h (by simp), ?_, ?_, ?_, ?_⟩
          · intro _
            rw [fsRead_remove_other _ filepath (filepath ++ "." ++ env.suffix) hne']
            rw [fsRead_write_other _ filepath (filepath ++ "." ++ env.suffix) _ hne']
            exact fsRead_write_other fs filepath (filepath ++ "." ++ env.suffix) _ hne'
          · intro _ _ _
            exact fsRead_remove_same _ _
          · intro hmk2
            simp [hfc] at hmk2 ⊢
          · intro _ hfd2
            simp [hfd] at hfd2
        | true =>
          cases hrn : env.renameOk with
          | false =>
            have hres : write_data_to_file fs filepath data env
                = (false, fsRemove
                    (fsWrite (fsWrite fs (filepath ++ "." ++ env.suffix) [])
                      (filepath ++ "." ++ env.suffix) (data.take (min env.written data.length)))
                    (filepath ++ "." ++ env.suffix)) := by
              simp [write_data_to_file, open_tmp_file, rename_tmp_file, hmk, hfd, hfc, hrn, hwr]
            rw [hres]
            refine ⟨fun h => absurd h (by simp), ?_, ?_, ?_, ?_⟩
            · intro _
              rw [fsRead_remove_other _ filepath (filepath ++ "." ++ env.suffix) hne']
              rw [fsRead_write_other _ filepath (filepath ++ "." ++ env.suffix) _ hne']
              exact fsRead_write_other fs filepath (filepath ++ "." ++ env.suffix) _ hne'
            · intro _ _ _
              exact fsRead_remove_same _ _
            · intro hmk2
              simp [hrn] at hmk2 ⊢
            · intro _ hfd2
              simp [hfd] at hfd2
          | true =>
            have htake : data.take (min env.written data.length) = data := by
              rw [hwr]
              exact List.take_length data
            have hres : write_data_to_file fs filepath data env
                = (true, fsWrite
                    (fsRemove
                      (fsWrite (fsWrite fs (filepath ++ "." ++ env.suffix) [])
                        (filepath ++ "." ++ env.suffix) data)
                      (filepath ++ "." ++ env.suffix))
                    filepath data) := by
              simp [write_data_to_file, open_tmp_file, rename_tmp_file, hmk, hfd, hfc, hrn,
                    hwr, htake, fsRead_write_same]
            rw [hres]
            refine ⟨?_, fun h => absurd h (by simp), fun h => absurd h (by simp), ?_, ?_⟩
            · intro _
              refine ⟨hwr, rfl, rfl, fsRead_write_same _ filepath data, ?_⟩
              rw [fsRead_write_other _ (filepath ++ "." ++ env.suffix) filepath data hne]
              exact fsRead_remove_same _ _
            · intro hmk2
              simp [hmk] at hmk2
            · intro _ hfd2
              simp [hfd] at hfd2
      · have hres : write_data_to_file fs filepath data env
            = (false, fsRemove
                (fsWrite (fsWrite fs (filepath ++ "." ++ env.suffix) [])
                  (filepath ++ "." ++ env.suffix) (data.take (min env.written data.length)))
                (filepath ++ "." ++ env.suffix)) := by
          simp [write_data_to_file, open_tmp_file, rename_tmp_file, hmk, hfd, hwr]
        rw [hres]
        refine ⟨fun h => absurd h (by simp), ?_, ?_, ?_, ?_⟩
        · intro _
          rw [fsRead_remove_other _ filepath (filepath ++ "." ++ env.suffix) hne']
          rw [fsRead_write_other _ filepath (filepath ++ "." ++ env.suffix) _ hne']
          exact fsRead_write_other fs filepath (filepath ++ "." ++ env.suffix) _ hne'
        · intro _ _ _
          exact fsRead_remove_same _ _
        · intro hmk2
          simp [hwr] at hmk2 ⊢
        · intro _ hfd2
          simp [hfd] at hfd2

/-- Witness for C9 (amended) at a concrete input: with every library call
succeeding and one byte of one written, the destination holds the data and no
temporary file remains. -/
theorem write_data_atomic_witness :
    (write_data_to_file [] "f" ['x']
      { mkstempOk := true, suffix := "ABCDEF", fdopenOk := true,
        written := 1, fcloseOk := true, renameOk := true }).1 = true
    ∧ fsRead (write_data_to_file [] "f" ['x']
      { mkstempOk := true, suffix := "ABCDEF", fdopenOk := true,
        written := 1, fcloseOk := true, renameOk := true }).2 "f" = some ['x']
    ∧ fsRead (write_data_to_file [] "f" ['x']
      { mkstempOk := true, suffix := "ABCDEF", fdopenOk := true,
        written := 1, fcloseOk := true, renameOk := true }).2 "f.ABCDEF" = none := by
  have h := write_data_atomic [] "f" ['x']
    { mkstempOk := true, suffix := "ABCDEF", fdopenOk := true,
      written := 1, fcloseOk := true, renameOk := true } (by decide)
  have h1 := h.1 (by decide)
  exact ⟨by decide, h1.2.2.2.1, h1.2.2.2.2⟩
